import Mathlib

/-!
Verification of the deterministic core of the `mastra-inquiry` repository:
the CORS origin resolver (worker entry point) and the keyword-based TCM
pattern scorer (`tcm-consultation-tool.ts`).  All definitions are shallow
embeddings of the TypeScript source; strings are modelled by Lean `String`
(lists of Unicode characters), and the JavaScript `RegExp` objects produced
by `wildcardToRegExp` are modelled by a small regular-expression AST with a
parser for exactly the syntax that construction emits, matched via
Brzozowski derivatives.
-/

namespace MastraInquiry

/-! ### Generic string helpers (list-of-char level, kernel-evaluable) -/

/-- Strip one trailing `'/'` from a string: models `s.replace(/\/$/, '')`. -/
def stripTrailingSlash (s : String) : String :=
  match s.data.getLast? with
  | some '/' => String.mk s.data.dropLast
  | _ => s

/-- Split a character list at every occurrence of `sep`; always returns at
least one (possibly empty) piece, like JavaScript `String.prototype.split`
with a single-character separator. -/
def splitOnChar (sep : Char) : List Char → List (List Char)
  | [] => [[]]
  | c :: rest =>
    let r := splitOnChar sep rest
    if c = sep then
      [] :: r
    else
      match r with
      | [] => [[c]]
      | h :: t => (c :: h) :: t

/-- Join pieces with a glue list: models `Array.prototype.join`. -/
def joinListChar (glue : List Char) : List (List Char) → List Char
  | [] => []
  | [x] => x
  | x :: y :: rest => x ++ glue ++ joinListChar glue (y :: rest)

/-- Does `hay` start with `nee`? -/
def listStartsWith : List Char → List Char → Bool
  | _, [] => true
  | [], _ :: _ => false
  | a :: as, b :: bs => a = b && listStartsWith as bs

/-- Does `hay` contain `nee` as a contiguous sublist? -/
def listContainsSub (hay nee : List Char) : Bool :=
  if listStartsWith hay nee then true
  else
    match hay with
    | [] => false
    | _ :: t => listContainsSub t nee

/-- `String.prototype.includes`: substring containment. -/
def containsSubstr (s sub : String) : Bool :=
  listContainsSub s.data sub.data

/-- `String.prototype.toLowerCase` (ASCII case folding, via `Char.toLower`;
non-ASCII characters, in particular CJK, are unaffected, as in the source's
use). -/
def toLowerStr (s : String) : String :=
  String.mk (s.data.map Char.toLower)

/-- Does the string contain the character `c` (JS `includes` on a
one-character needle)? -/
def containsChar (s : String) (c : Char) : Bool :=
  s.data.contains c

/-- `String.prototype.trim`. -/
def trimStr (s : String) : String :=
  String.mk (((s.data.dropWhile Char.isWhitespace).reverse.dropWhile
    Char.isWhitespace).reverse)

/-- First-seen-order deduplication: models `Array.from(new Set(xs))`. -/
def dedupAux : List String → List String → List String
  | [], _ => []
  | x :: xs, seen => if x ∈ seen then dedupAux xs seen else x :: dedupAux xs (x :: seen)

/-- `Array.from(new Set(xs))`: keep the first occurrence of each string. -/
def dedupFirstSeen (l : List String) : List String :=
  dedupAux l []

/-! ### A regular-expression engine for the fragment emitted by
`wildcardToRegExp` -/

/-- Regular expressions over characters: the fragment needed for the
compiled wildcard patterns (`^lit₀.*lit₁.*…litₙ$`), plus the closure the
Brzozowski derivative needs (`empty`, `alt`). -/
inductive Regex where
  | empty : Regex
  | eps : Regex
  | chr : Char → Regex
  | dot : Regex
  | seq : Regex → Regex → Regex
  | alt : Regex → Regex → Regex
  | star : Regex → Regex
deriving DecidableEq, Repr

/-- Does the regex accept the empty string? -/
def nullable : Regex → Bool
  | .empty => false
  | .eps => true
  | .chr _ => false
  | .dot => false
  | .seq a b => nullable a && nullable b
  | .alt a b => nullable a || nullable b
  | .star _ => true

/-- Smart sequencing constructor (keeps derivatives small). -/
def mkSeq : Regex → Regex → Regex
  | .empty, _ => .empty
  | .eps, b => b
  | a, b =>
    match b with
    | .empty => .empty
    | .eps => a
    | _ => .seq a b

/-- Smart alternation constructor (keeps derivatives small). -/
def mkAlt : Regex → Regex → Regex
  | .empty, b => b
  | a, b =>
    match b with
    | .empty => a
    | _ => .alt a b

/-- Brzozowski derivative of a regex with respect to a character. -/
def deriv : Regex → Char → Regex
  | .empty, _ => .empty
  | .eps, _ => .empty
  | .chr c, d => if c = d then .eps else .empty
  | .dot, _ => .eps
  | .seq a b, d =>
    if nullable a then mkAlt (mkSeq (deriv a d) b) (deriv b d)
    else mkSeq (deriv a d) b
  | .alt a b, d => mkAlt (deriv a d) (deriv b d)
  | .star a, d => mkSeq (deriv a d) (.star a)

/-- Full match of a regex against a character list, by iterated
derivatives. -/
def rmatch (r : Regex) (s : List Char) : Bool :=
  nullable (s.foldl deriv r)

/-- Right-nested sequencing of a list of regexes. -/
def seqList : List Regex → Regex
  | [] => .eps
  | [x] => x
  | x :: y :: rest => .seq x (seqList (y :: rest))

/-- The character class of `escapeRegExp`'s source regex
`/[.*+?^${}()|[\]\\]/g`: the fourteen JavaScript regex metacharacters. -/
def isMeta (c : Char) : Bool :=
  c == '.' || c == '*' || c == '+' || c == '?' || c == '^' || c == '$' ||
  c == '\x7b' || c == '\x7d' || c == '(' || c == ')' || c == '|' ||
  c == '[' || c == ']' || c == '\\'

/-- Regex-syntax characters that the fragment parser below does not
support unescaped (all of them are metacharacters, so `escapeRegExp`
never emits them bare). -/
def isUnsupported (c : Char) : Bool :=
  c == '+' || c == '?' || c == '^' || c == '$' || c == '(' || c == ')' ||
  c == '|' || c == '[' || c == ']' || c == '\x7b' || c == '\x7d'

/-- Escape one character: metacharacters get a preceding backslash
(`'\\$&'` replacement in the source). -/
def escapeChar (c : Char) : List Char :=
  if isMeta c then ['\\', c] else [c]

/-- `escapeRegExp` at the character-list level. -/
def escapeList (l : List Char) : List Char :=
  l.flatMap escapeChar

/-- `escapeRegExp`: prefix every regex metacharacter with a backslash. -/
def escapeRegExp (s : String) : String :=
  String.mk (escapeList s.data)

/-- Parse the body of a compiled pattern (no anchors) into a reversed list
of regex atoms.  Handles exactly the syntax `wildcardToRegExp` emits:
backslash-escaped characters, bare non-metacharacters, `.` and a postfix
`*`; any other metacharacter is rejected. -/
def parseRegexAux : List Char → List Regex → Option (List Regex)
  | [], acc => some acc
  | c :: rest, acc =>
    if c = '\\' then
      match rest with
      | [] => none
      | d :: rest2 => parseRegexAux rest2 (Regex.chr d :: acc)
    else if c = '*' then
      match acc with
      | [] => none
      | a :: acc2 => parseRegexAux rest (Regex.star a :: acc2)
    else if c = '.' then
      parseRegexAux rest (Regex.dot :: acc)
    else if isUnsupported c then none
    else parseRegexAux rest (Regex.chr c :: acc)

/-- Parse an anchor-free regex body into a `Regex`. -/
def parseRegexBody (l : List Char) : Option Regex :=
  (parseRegexAux l []).map (fun acc => seqList acc.reverse)

/-- Compile the source text of an anchored regex `^…$` (the only shape
`wildcardToRegExp` produces) into a `Regex`. -/
def compileAnchored (src : String) : Option Regex :=
  match src.data with
  | '^' :: rest =>
    if rest.getLast? = some '$' then parseRegexBody rest.dropLast else none
  | _ => none

/-- `RegExp.prototype.test` for an anchored pattern source: full match of
the body against the whole string. -/
def regExpTest (src : String) (s : String) : Bool :=
  match compileAnchored src with
  | some r => rmatch r s.data
  | none => false

/-! ### CORS origin resolution (worker entry point, `src/unnamed/part_000`) -/

/-- `ALLOW_METHODS` constant of the worker. -/
def ALLOW_METHODS : List String :=
  ["GET", "POST", "PUT", "PATCH", "DELETE", "OPTIONS"]

/-- `ALLOW_HEADERS` constant of the worker. -/
def ALLOW_HEADERS : List String :=
  ["Content-Type", "Authorization", "x-mastra-client-type", "x-request-id"]

/-- `EXPOSE_HEADERS` constant of the worker. -/
def EXPOSE_HEADERS : List String :=
  ["Content-Length", "X-Requested-With", "x-request-id"]

/-- `Array.prototype.join(', ')` on a list of strings. -/
def joinCommaSpace (l : List String) : String :=
  String.mk (joinListChar [',', ' '] (l.map String.data))

/-- Body of the compiled wildcard regex: pieces of the pattern split at
`'*'`, each escaped, joined with `.*` (the `split/map/join` chain of the
source). -/
def wildcardBody (pattern : String) : List Char :=
  joinListChar ['.', '*'] ((splitOnChar '*' pattern.data).map escapeList)

/-- `wildcardToRegExp`: source text of `new RegExp('^' + escaped + '$')`. -/
def wildcardToRegExp (pattern : String) : String :=
  String.mk ('^' :: wildcardBody pattern ++ ['$'])

/-- `matchesOrigin`: `'*'` matches everything; a pattern containing `'*'`
is compiled to a regex and tested; otherwise exact equality. -/
def matchesOrigin (pattern origin : String) : Bool :=
  if pattern = "*" then true
  else if containsChar pattern '*' then regExpTest (wildcardToRegExp pattern) origin
  else pattern == origin

/-- `splitAllowedOrigins`: split raw configuration on commas, trim and
strip one trailing slash from each entry, drop empties (`filter(Boolean)`;
a missing or empty raw string yields `[]`). -/
def splitAllowedOrigins (raw : Option String) : List String :=
  match raw with
  | none => []
  | some r =>
    if r = "" then []
    else (((splitOnChar ',' r.data).map
        (fun l => stripTrailingSlash (trimStr (String.mk l)))).filter
      (fun s => s ≠ ""))

/-- `resolveCorsOrigin`.  A JavaScript-falsy request origin (`null` or the
empty string) yields the first allow-list entry or `'*'`; otherwise the
origin is normalized by stripping one trailing slash and echoed back iff
the allow-list is empty or some entry matches; `null` on no match. -/
def resolveCorsOrigin (requestOrigin : Option String) (allowedOrigins : List String) :
    Option String :=
  match requestOrigin with
  | none => some (allowedOrigins.headD "*")
  | some o =>
    if o = "" then some (allowedOrigins.headD "*")
    else
      let normalized := stripTrailingSlash o
      if allowedOrigins.isEmpty then some normalized
      else if allowedOrigins.any (fun allowed => matchesOrigin allowed normalized) then
        some normalized
      else none

/-- JavaScript truthiness of a nullable string. -/
def isTruthy : Option String → Bool
  | none => false
  | some s => s ≠ ""

/-- Header map modelled as an association list in insertion order. -/
def headersSet (hs : List (String × String)) (k v : String) : List (String × String) :=
  if hs.any (fun p => p.1 = k) then
    hs.map (fun p => if p.1 = k then (k, v) else p)
  else hs ++ [(k, v)]

/-- `Headers.prototype.has`. -/
def headersHas (hs : List (String × String)) (k : String) : Bool :=
  hs.any (fun p => p.1 = k)

/-- `Headers.prototype.get`. -/
def headersGet (hs : List (String × String)) (k : String) : Option String :=
  (hs.find? (fun p => p.1 = k)).map (fun p => p.2)

/-- `applyCorsHeaders`: echo a truthy origin with `Vary: Origin`, else fall
back to `Access-Control-Allow-Origin: *` when the header is absent; then
set the three fixed CORS headers. -/
def applyCorsHeaders (headers : List (String × String)) (origin : Option String) :
    List (String × String) :=
  let h :=
    if isTruthy origin then
      headersSet (headersSet headers "Access-Control-Allow-Origin" (origin.getD ""))
        "Vary" "Origin"
    else if !headersHas headers "Access-Control-Allow-Origin" then
      headersSet headers "Access-Control-Allow-Origin" "*"
    else headers
  let h := headersSet h "Access-Control-Allow-Methods" (joinCommaSpace ALLOW_METHODS)
  let h := headersSet h "Access-Control-Allow-Headers" (joinCommaSpace ALLOW_HEADERS)
  headersSet h "Access-Control-Expose-Headers" (joinCommaSpace EXPOSE_HEADERS)

/-- A synthesized response: status code plus headers. -/
structure CorsResponse where
  status : Nat
  headers : List (String × String)
deriving DecidableEq, Repr

/-- The worker `fetch` handler's `OPTIONS` branch: resolve the origin, apply
the CORS headers to a fresh header map, add `Access-Control-Max-Age`
(`(24*60*60).toString()`), and answer `204`. -/
def handleOptions (originHeader : Option String) (allowedOrigins : List String) :
    CorsResponse :=
  let origin := resolveCorsOrigin originHeader allowedOrigins
  let headers := applyCorsHeaders [] origin
  let headers := headersSet headers "Access-Control-Max-Age" (toString (24 * 60 * 60))
  ⟨204, headers⟩

/-! ### TCM pattern scorer (`src/src/mastra/tools/tcm-consultation-tool.ts`) -/

/-- A catalog pattern entry (`TcmPattern` in the source). -/
structure TcmPattern where
  id : String
  name : String
  description : String
  classicalFormula : String
  keyHerbs : List String
  acupoints : List String
  lifestyle : List String
  keywords : List String
deriving DecidableEq, Repr

/-- The static `tcmPatterns` catalog, verbatim from the source. -/
def tcmPatterns : List TcmPattern :=
  [{ id := "windCold"
     name := "风寒束表 (Wind-Cold Invasion)"
     description := "Aversion to wind/cold with superficial obstruction, often early-stage external pathogen."
     classicalFormula := "荆防败毒散 或 桂枝汤加减"
     keyHerbs := ["荆芥", "防风", "桂枝", "白芍", "薄荷"]
     acupoints := ["LI4 合谷", "LU7 列缺", "GB20 风池", "DU14 大椎"]
     lifestyle := ["保暖避风，避免冷饮", "多饮温姜茶或葱白水", "充分休息，避免汗出过多"]
     keywords := ["chill", "chills", "aversion to wind", "stiff neck", "body ache",
       "无汗", "恶寒", "头痛", "clear mucus", "sneezing"] },
   { id := "windHeat"
     name := "风热犯表 (Wind-Heat Invasion)"
     description := "Heat signs with sore throat, thirst, or yellow nasal discharge."
     classicalFormula := "银翘散 或 桑菊饮"
     keyHerbs := ["金银花", "连翘", "桑叶", "菊花", "薄荷"]
     acupoints := ["LI4 合谷", "LI11 曲池", "LU10 鱼际", "DU14 大椎"]
     lifestyle := ["多饮温水，可用菊花薄荷茶缓解", "避免辛辣炸物与酒精", "保持充足睡眠，利于正气恢复"]
     keywords := ["sore throat", "throat pain", "red eyes", "yellow mucus", "fever",
       "发热", "咽喉痛", "咽痛", "口渴"] },
   { id := "qiDeficiency"
     name := "脾肺气虚 (Spleen/Lung Qi Deficiency)"
     description := "Fatigue, low voice, tendency to catch colds, loose stools, spontaneous sweating."
     classicalFormula := "玉屏风散 或 补中益气汤"
     keyHerbs := ["黄芪", "白术", "防风", "党参", "陈皮"]
     acupoints := ["ST36 足三里", "RN6 气海", "RN12 中脘", "BL13 肺俞"]
     lifestyle := ["规律进餐，温食为主", "适度运动如太极或散步", "避免过劳，保持情绪平稳"]
     keywords := ["fatigue", "low appetite", "loose stool", "spontaneous sweat", "tired",
       "乏力", "食欲差", "大便稀", "怕风"] },
   { id := "liverQiStagnation"
     name := "肝气郁结 (Liver Qi Stagnation)"
     description := "Stress-related distention, mood swings, PMS, sighing."
     classicalFormula := "逍遥散 或 柴胡疏肝散"
     keyHerbs := ["柴胡", "白芍", "香附", "薄荷", "炙甘草"]
     acupoints := ["LR3 太冲", "PC6 内关", "GB34 阳陵泉", "RN17 膻中"]
     lifestyle := ["深呼吸练习或八段锦", "保持情绪抒发，可写日记或与人交流", "减少油腻与酒精摄入"]
     keywords := ["stress", "irritability", "pms", "distention", "胀痛", "情绪", "胸闷", " sigh "] }]

/-- A red-flag rule: keyword set plus a fixed advisory message. -/
structure RedFlagRule where
  keywords : List String
  message : String
deriving DecidableEq, Repr

/-- The static `redFlagIndicators` list, verbatim from the source. -/
def redFlagIndicators : List RedFlagRule :=
  [{ keywords := ["difficulty breathing", "喘不过气", "chest pain", "晕厥", "意识模糊"]
     message := "出现呼吸困难、胸痛或意识改变，应立即就医或拨打急救电话。" },
   { keywords := ["high fever", "39", "persistent vomiting", "呕血", "血便"]
     message := "持续高热或伴有出血、剧烈呕吐需及时到医院排查严重感染或内科问题。" }]

/-- The intake object (`intakeSchema`): `keySymptoms` required, the rest
optional. -/
structure Intake where
  keySymptoms : String
  tongue : Option String := none
  pulse : Option String := none
  constitution : Option String := none
  lifestyle : Option String := none
  duration : Option String := none
deriving DecidableEq, Repr

/-- The lower-cased narrative: present, non-empty free-text fields in the
declared order, joined by single spaces (`filter(Boolean).join(' ')
.toLowerCase()`). -/
def narrativeOf (c : Intake) : String :=
  toLowerStr (String.mk (joinListChar [' ']
    ((([some c.keySymptoms, c.duration, c.tongue, c.pulse, c.constitution,
        c.lifestyle].filterMap id).filter (fun s => s ≠ "")).map String.data)))

/-- Keyword-hit score of one pattern against the narrative (the `reduce`
over `pattern.keywords`). -/
def scoreOf (narrative : String) (p : TcmPattern) : Nat :=
  p.keywords.foldl
    (fun acc keyword =>
      if containsSubstr narrative (toLowerStr keyword) then acc + 1 else acc) 0

/-- A scored catalog entry. -/
structure Scored where
  pattern : TcmPattern
  score : Nat
deriving DecidableEq, Repr

/-- Insert into a list already sorted descending by score, before the first
element of not-larger score (stability: earlier elements win ties). -/
def insertDesc (x : Scored) : List Scored → List Scored
  | [] => [x]
  | y :: ys => if x.score ≥ y.score then x :: y :: ys else y :: insertDesc x ys

/-- Stable descending sort by score: models the ES2019+ stable
`Array.prototype.sort((a, b) => b.score - a.score)`. -/
def sortDesc : List Scored → List Scored
  | [] => []
  | x :: xs => insertDesc x (sortDesc xs)

/-- The scored, descending-sorted catalog for a narrative. -/
def scoredPatterns (narrative : String) : List Scored :=
  sortDesc (tcmPatterns.map (fun p => ⟨p, scoreOf narrative p⟩))

/-- The shape returned by `buildPattern` / `buildGeneralWellnessPattern`. -/
structure PatternOutput where
  name : String
  description : String
  rationale : String
  classicalFormula : String
  keyHerbs : List String
  acupoints : List String
  lifestyle : List String
deriving DecidableEq, Repr

/-- `buildPattern`. -/
def buildPattern (p : TcmPattern) (c : Intake) : PatternOutput :=
  { name := p.name
    description := p.description
    classicalFormula := p.classicalFormula
    keyHerbs := p.keyHerbs
    acupoints := p.acupoints
    lifestyle := p.lifestyle
    rationale := "根据提供的症状（" ++ c.keySymptoms ++ "）及体征提示的关键词，符合" ++
      p.name ++ "的特征表现。" }

/-- `buildGeneralWellnessPattern`: the fixed general-regulation fallback. -/
def buildGeneralWellnessPattern (c : Intake) : PatternOutput :=
  { name := "一般调理 (General Regulation)"
    description := "未出现典型辨证线索，以扶正祛邪、调和脏腑为主的综合调理建议。"
    classicalFormula := "可依体质选择四君子汤、六味地黄丸等基础方加减"
    keyHerbs := ["黄芪", "党参", "茯苓", "白术", "麦冬"]
    acupoints := ["ST36 足三里", "RN6 气海", "SP6 三阴交"]
    lifestyle := ["保证睡眠，规律饮食", "适量温和运动，保持情绪稳定"]
    rationale := "目前症状描述（" ++ c.keySymptoms ++ "）尚不足以判定特定证型，建议先行综合调理并随访。" }

/-- The result shape of `analyzePresentation`. -/
structure AnalysisResult where
  primaryPattern : PatternOutput
  secondaryPatterns : List PatternOutput
  redFlags : List String
  intakeSummary : String
  suggestedFocus : List String
deriving DecidableEq, Repr

/-- A labelled optional summary line: `context.field ? label + field : null`. -/
def optLabel (label : String) : Option String → Option String
  | none => none
  | some s => if s = "" then none else some (label ++ s)

/-- `analyzePresentation`: score the catalog, pick primary (fallback when
the top score is zero), take up to two positive-score secondaries, collect
red-flag messages, dedupe and truncate lifestyle focus to five, and build
the delimited intake summary. -/
def analyzePresentation (c : Intake) : AnalysisResult :=
  let narrative := narrativeOf c
  let scored := scoredPatterns narrative
  let primary :=
    match scored.head? with
    | some s => if s.score ≠ 0 then buildPattern s.pattern c else buildGeneralWellnessPattern c
    | none => buildGeneralWellnessPattern c
  let secondaryPatterns :=
    (((scored.drop 1).take 2).filter (fun s => s.score > 0)).map
      (fun s => buildPattern s.pattern c)
  let redFlags :=
    (redFlagIndicators.filter
      (fun ind => ind.keywords.any
        (fun keyword => containsSubstr narrative (toLowerStr keyword)))).map
      (fun ind => ind.message)
  let suggestedFocus :=
    (dedupFirstSeen
      (primary.lifestyle ++ (secondaryPatterns.map (fun p => p.lifestyle)).flatten)).take 5
  let intakeSummary :=
    String.mk (joinListChar "；".data
      ((([some ("主诉：" ++ c.keySymptoms),
          optLabel "病程：" c.duration,
          optLabel "舌象：" c.tongue,
          optLabel "脉象：" c.pulse,
          optLabel "体质：" c.constitution,
          optLabel "生活方式：" c.lifestyle].filterMap id).filter
        (fun s => s ≠ "")).map String.data))
  { primaryPattern := primary
    secondaryPatterns := secondaryPatterns
    redFlags := redFlags
    intakeSummary := intakeSummary
    suggestedFocus := suggestedFocus }

/-- Every catalog keyword. -/
def allCatalogKeywords : List String :=
  (tcmPatterns.map (fun p => p.keywords)).flatten

/-- Every red-flag keyword. -/
def allRedFlagKeywords : List String :=
  (redFlagIndicators.map (fun r => r.keywords)).flatten

/-! ### Helper lemmas: the compiled wildcard regex always parses -/

theorem parseRegexAux_backslash (c : Char) (rest : List Char) (acc : List Regex) :
    parseRegexAux ('\\' :: c :: rest) acc = parseRegexAux rest (Regex.chr c :: acc) :=
  rfl

theorem parseRegexAux_dotStar (rest : List Char) (acc : List Regex) :
    parseRegexAux ('.' :: '*' :: rest) acc =
      parseRegexAux rest (Regex.star Regex.dot :: acc) := by
  rw [parseRegexAux.eq_def]
  simp
  rw [parseRegexAux.eq_def]
  simp

theorem parseRegexAux_plain (c : Char) (rest : List Char) (acc : List Regex)
    (h : isMeta c = false) :
    parseRegexAux (c :: rest) acc = parseRegexAux rest (Regex.chr c :: acc) := by
  have hb : c ≠ '\\' := by rintro rfl; simp [isMeta] at h
  have hs : c ≠ '*' := by rintro rfl; simp [isMeta] at h
  have hd : c ≠ '.' := by rintro rfl; simp [isMeta] at h
  have hu : isUnsupported c = false := by
    cases hx : isUnsupported c
    · rfl
    · exfalso
      have hmt : isMeta c = true := by
        simp only [isUnsupported, Bool.or_eq_true, beq_iff_eq] at hx
        simp only [isMeta, Bool.or_eq_true, beq_iff_eq]
        tauto
      rw [hmt] at h
      cases h
  rw [parseRegexAux.eq_def]
  simp [hb, hs, hd, hu]

theorem parseRegexAux_escape_append (l : List Char) (rest : List Char)
    (acc : List Regex) :
    parseRegexAux (escapeList l ++ rest) acc =
      parseRegexAux rest ((l.map Regex.chr).reverse ++ acc) := by
  induction l generalizing acc with
  | nil => simp [escapeList]
  | cons c l ih =>
    by_cases hm : isMeta c = true
    · have he : escapeList (c :: l) ++ rest = '\\' :: c :: (escapeList l ++ rest) := by
        simp [escapeList, escapeChar, hm]
      rw [he, parseRegexAux_backslash, ih]
      simp
    · have hm' : isMeta c = false := by
        cases hmc : isMeta c
        · rfl
        · exact absurd hmc hm
      have he : escapeList (c :: l) ++ rest = c :: (escapeList l ++ rest) := by
        simp [escapeList, escapeChar, hm']
      rw [he, parseRegexAux_plain c _ _ hm', ih]
      simp

theorem parseRegexAux_join_isSome (pieces : List (List Char)) (acc : List Regex)
    (h : pieces ≠ []) :
    (parseRegexAux (joinListChar ['.', '*'] (pieces.map escapeList)) acc).isSome =
      true := by
  induction pieces generalizing acc with
  | nil => exact absurd rfl h
  | cons x ps ih =>
    cases ps with
    | nil =>
      simp only [List.map_cons, List.map_nil, joinListChar]
      rw [show escapeList x = escapeList x ++ [] by simp, parseRegexAux_escape_append]
      simp [parseRegexAux]
    | cons y ps' =>
      simp only [List.map_cons, joinListChar]
      rw [show escapeList x ++ ['.', '*'] ++
            joinListChar ['.', '*'] (escapeList y :: ps'.map escapeList) =
          escapeList x ++ ('.' :: '*' ::
            joinListChar ['.', '*'] (escapeList y :: ps'.map escapeList)) by simp,
        parseRegexAux_escape_append, parseRegexAux_dotStar]
      have hstep := ih (Regex.star Regex.dot :: (x.map Regex.chr).reverse ++ acc)
        (by simp)
      simpa using hstep

theorem splitOnChar_ne_nil (sep : Char) (l : List Char) : splitOnChar sep l ≠ [] := by
  cases l with
  | nil => simp [splitOnChar]
  | cons c rest =>
    by_cases hc : c = sep
    · simp [splitOnChar, hc]
    · cases hr : splitOnChar sep rest with
      | nil => simp [splitOnChar, hc, hr]
      | cons h t => simp [splitOnChar, hc, hr]

theorem compileAnchored_wildcard_isSome (pattern : String) :
    (compileAnchored (wildcardToRegExp pattern)).isSome = true := by
  have hdata : (wildcardToRegExp pattern).data =
      '^' :: (wildcardBody pattern ++ ['$']) := rfl
  unfold compileAnchored
  rw [hdata]
  simp only [List.getLast?_concat, List.dropLast_concat, if_pos]
  unfold parseRegexBody wildcardBody
  rw [Option.isSome_map']
  exact parseRegexAux_join_isSome _ _ (by
    simp only [ne_eq, List.map_eq_nil_iff]
    exact splitOnChar_ne_nil '*' pattern.data)

/-! ### Helper lemmas: scorer behaviour when no keyword hits -/

theorem foldl_score_zero (n : String) (l : List String) (acc : Nat)
    (h : ∀ kw ∈ l, containsSubstr n (toLowerStr kw) = false) :
    l.foldl
      (fun acc keyword =>
        if containsSubstr n (toLowerStr keyword) then acc + 1 else acc) acc = acc := by
  induction l generalizing acc with
  | nil => rfl
  | cons k l ih =>
    simp only [List.foldl_cons, h k (by simp)]
    simpa using ih acc (fun kw hkw => h kw (by simp [hkw]))

theorem scoreOf_eq_zero (n : String) (p : TcmPattern)
    (h : ∀ kw ∈ p.keywords, containsSubstr n (toLowerStr kw) = false) :
    scoreOf n p = 0 :=
  foldl_score_zero n p.keywords 0 h

theorem insertDesc_allZero (x : Scored) (l : List Scored) (hx : x.score = 0)
    (hl : ∀ s ∈ l, s.score = 0) : insertDesc x l = x :: l := by
  cases l with
  | nil => rfl
  | cons y ys =>
    have hge : x.score ≥ y.score := by rw [hx, hl y (by simp)]
    simp [insertDesc, hge]

theorem sortDesc_allZero (l : List Scored) (h : ∀ s ∈ l, s.score = 0) :
    sortDesc l = l := by
  induction l with
  | nil => rfl
  | cons x xs ih =>
    simp only [sortDesc]
    rw [ih (fun s hs => h s (by simp [hs]))]
    exact insertDesc_allZero x xs (h x (by simp)) (fun s hs => h s (by simp [hs]))

theorem mem_allCatalogKeywords (p : TcmPattern) (hp : p ∈ tcmPatterns) (kw : String)
    (hkw : kw ∈ p.keywords) : kw ∈ allCatalogKeywords := by
  unfold allCatalogKeywords
  rw [List.mem_flatten]
  exact ⟨p.keywords, List.mem_map.mpr ⟨p, hp, rfl⟩, hkw⟩

theorem mem_allRedFlagKeywords (r : RedFlagRule) (hr : r ∈ redFlagIndicators)
    (kw : String) (hkw : kw ∈ r.keywords) : kw ∈ allRedFlagKeywords := by
  unfold allRedFlagKeywords
  rw [List.mem_flatten]
  exact ⟨r.keywords, List.mem_map.mpr ⟨r, hr, rfl⟩, hkw⟩

theorem scoredPatterns_allZero (n : String)
    (h : ∀ kw ∈ allCatalogKeywords, containsSubstr n (toLowerStr kw) = false) :
    scoredPatterns n = tcmPatterns.map (fun p => ⟨p, 0⟩) := by
  have hs : ∀ p ∈ tcmPatterns, scoreOf n p = 0 := fun p hp =>
    scoreOf_eq_zero n p (fun kw hkw => h kw (mem_allCatalogKeywords p hp kw hkw))
  unfold scoredPatterns
  have hmc : tcmPatterns.map (fun p => (⟨p, scoreOf n p⟩ : Scored)) =
      tcmPatterns.map (fun p => (⟨p, 0⟩ : Scored)) :=
    List.map_congr_left (fun p hp => by rw [hs p hp])
  rw [hmc]
  apply sortDesc_allZero
  intro s hsm
  obtain ⟨p, hp, rfl⟩ := List.mem_map.mp hsm
  rfl

/-! ### Helper lemmas: the `OPTIONS` response's header map -/

/-- The header map `handleOptions` builds (definitional alias used by the
lemmas below; `(handleOptions oh l).headers` is definitionally
`optionsHeaders (resolveCorsOrigin oh l)`). -/
def optionsHeaders (r : Option String) : List (String × String) :=
  headersSet (applyCorsHeaders [] r) "Access-Control-Max-Age" (toString (24 * 60 * 60))

theorem optionsHeaders_truthy (r : Option String) (h : isTruthy r = true) :
    optionsHeaders r =
      [("Access-Control-Allow-Origin", r.getD ""), ("Vary", "Origin"),
       ("Access-Control-Allow-Methods", "GET, POST, PUT, PATCH, DELETE, OPTIONS"),
       ("Access-Control-Allow-Headers",
         "Content-Type, Authorization, x-mastra-client-type, x-request-id"),
       ("Access-Control-Expose-Headers", "Content-Length, X-Requested-With, x-request-id"),
       ("Access-Control-Max-Age", "86400")] := by
  cases r with
  | none => cases h
  | some s =>
    unfold optionsHeaders applyCorsHeaders
    rw [h]
    rfl

theorem optionsHeaders_falsy (r : Option String) (h : isTruthy r = false) :
    optionsHeaders r =
      [("Access-Control-Allow-Origin", "*"),
       ("Access-Control-Allow-Methods", "GET, POST, PUT, PATCH, DELETE, OPTIONS"),
       ("Access-Control-Allow-Headers",
         "Content-Type, Authorization, x-mastra-client-type, x-request-id"),
       ("Access-Control-Expose-Headers", "Content-Length, X-Requested-With, x-request-id"),
       ("Access-Control-Max-Age", "86400")] := by
  unfold optionsHeaders applyCorsHeaders
  rw [h]
  rfl

theorem handleOptions_headers_eq (oh : Option String) (l : List String) :
    (handleOptions oh l).headers = optionsHeaders (resolveCorsOrigin oh l) :=
  rfl

/-! ### Claim theorems -/

/-- C1: for every non-empty request origin and every non-empty allow-list,
the resolver strips one trailing `'/'` from the origin and returns that
normalized origin iff some allow-list entry matches it under the
`matchesOrigin` rule (`'*'` matches everything, an entry containing `'*'`
is compiled by escape-then-substitute and tested as a regex, any other
entry matches by exact equality); on no match it returns `null`. -/
theorem resolveCorsOrigin_matches_iff (o : String) (l : List String)
    (ho : o ≠ "") (hl : l ≠ []) :
    (resolveCorsOrigin (some o) l = some (stripTrailingSlash o) ↔
      ∃ p ∈ l, matchesOrigin p (stripTrailingSlash o) = true) ∧
    ((¬ ∃ p ∈ l, matchesOrigin p (stripTrailingSlash o) = true) →
      resolveCorsOrigin (some o) l = none) := by
  have hle : l.isEmpty = false := by
    cases l with
    | nil => exact absurd rfl hl
    | cons a as => rfl
  by_cases hany : l.any (fun allowed => matchesOrigin allowed (stripTrailingSlash o)) = true
  · have hres : resolveCorsOrigin (some o) l = some (stripTrailingSlash o) := by
      simp [resolveCorsOrigin, ho, hle, hany]
    exact ⟨⟨fun _ => List.any_eq_true.mp hany, fun _ => hres⟩,
      fun hn => absurd (List.any_eq_true.mp hany) hn⟩
  · have hres : resolveCorsOrigin (some o) l = none := by
      simp [resolveCorsOrigin, ho, hle, hany]
    refine ⟨⟨fun h => ?_, fun he => absurd (List.any_eq_true.mpr he) hany⟩, fun _ => hres⟩
    rw [hres] at h
    cases h

/-- C1 witness: the spec's example — allow-list
`["https://a.com", "https://b.com"]` and origin `https://a.com/` resolve to
`https://a.com` (trailing slash stripped, exact entry match). -/
theorem resolveCorsOrigin_matches_iff_witness :
    resolveCorsOrigin (some "https://a.com/") ["https://a.com", "https://b.com"] =
      some "https://a.com" :=
  (resolveCorsOrigin_matches_iff "https://a.com/" ["https://a.com", "https://b.com"]
    (by decide) (by decide)).1.mpr ⟨"https://a.com", by decide, by decide⟩

/-- C4: the wildcard entry `https://*.pages.dev` compiles (escape all
metacharacters, substitute `'*'` with `.*`, anchor both ends) to
`^https://.*\.pages\.dev$`, which matches `https://449cdfa5.pages.dev` and
rejects `https://pages.dev.evil.com`. -/
theorem wildcard_pages_dev :
    wildcardToRegExp "https://*.pages.dev" = "^https://.*\\.pages\\.dev$" ∧
    matchesOrigin "https://*.pages.dev" "https://449cdfa5.pages.dev" = true ∧
    matchesOrigin "https://*.pages.dev" "https://pages.dev.evil.com" = false := by
  refine ⟨by decide, by decide, by decide⟩

/-- C5: with an empty allow-list, every non-empty request origin is
resolved to its normalized (trailing-slash-stripped) self — permissive. -/
theorem resolveCorsOrigin_empty_allowlist (o : String) (ho : o ≠ "") :
    resolveCorsOrigin (some o) [] = some (stripTrailingSlash o) := by
  simp [resolveCorsOrigin, ho]

/-- C5 witness: empty allow-list and origin `https://x.com` resolve to
`https://x.com`. -/
theorem resolveCorsOrigin_empty_allowlist_witness :
    resolveCorsOrigin (some "https://x.com") [] = some "https://x.com" :=
  resolveCorsOrigin_empty_allowlist "https://x.com" (by decide)

/-- C6: with the request origin absent, the resolver returns the
allow-list's first entry, or `"*"` when the allow-list is empty. -/
theorem resolveCorsOrigin_absent (l : List String) :
    resolveCorsOrigin none l = some (l.headD "*") :=
  rfl

/-- C10: for every non-empty request origin, the resolver's result is
either `null` or exactly the trailing-slash-stripped request origin — it
never fabricates any other string. -/
theorem resolveCorsOrigin_echo_or_null (o : String) (l : List String) (ho : o ≠ "") :
    resolveCorsOrigin (some o) l = none ∨
    resolveCorsOrigin (some o) l = some (stripTrailingSlash o) := by
  by_cases h1 : l.isEmpty
  · right
    simp [resolveCorsOrigin, ho, h1]
  · by_cases h2 : l.any (fun allowed => matchesOrigin allowed (stripTrailingSlash o)) = true
    · right
      simp [resolveCorsOrigin, ho, h1, h2]
    · left
      simp [resolveCorsOrigin, ho, h1, h2]

/-- C10 witness: at origin `https://a.com/` against allow-list
`["https://b.com"]` the conclusion holds (here: the `null` branch). -/
theorem resolveCorsOrigin_echo_or_null_witness :
    resolveCorsOrigin (some "https://a.com/") ["https://b.com"] = none ∨
    resolveCorsOrigin (some "https://a.com/") ["https://b.com"] =
      some (stripTrailingSlash "https://a.com/") :=
  resolveCorsOrigin_echo_or_null "https://a.com/" ["https://b.com"] (by decide)

/-- C2 (code bug): for the intake `{keySymptoms: "胸痛 呼吸困难"}` the
analyzer returns an **empty** `redFlags` array — no red-flag keyword
(`'chest pain'`, `'difficulty breathing'`, `'喘不过气'`, …) is a substring
of the narrative, although the first rule's own advisory message names
呼吸困难 and 胸痛 as triggers. -/
theorem redFlags_empty_on_chinese_chest_pain :
    (analyzePresentation ⟨"胸痛 呼吸困难", none, none, none, none, none⟩).redFlags = [] := by
  decide

/-- C7: for the intake `{keySymptoms: "恶寒 头痛 无汗"}` the top-scored
catalog entry is `windCold` with keyword-hit score at least 3 (exactly 3:
恶寒, 头痛, 无汗), and the analyzer's primary pattern is the wind-cold
pattern. -/
theorem primary_windCold :
    ((scoredPatterns
        (narrativeOf ⟨"恶寒 头痛 无汗", none, none, none, none, none⟩)).head?.map
      (fun s => s.pattern.id)) = some "windCold" ∧
    3 ≤ ((scoredPatterns
        (narrativeOf ⟨"恶寒 头痛 无汗", none, none, none, none, none⟩)).head?.map
      (fun s => s.score)).getD 0 ∧
    (analyzePresentation ⟨"恶寒 头痛 无汗", none, none, none, none, none⟩).primaryPattern.name =
      "风寒束表 (Wind-Cold Invasion)" := by
  refine ⟨by decide, by decide, by decide⟩

/-- C3 counterexample: for the OPTIONS request with origin
`https://evil.com` against allow-list `["https://a.com"]` the resolved
origin is `null`, yet the handler still attaches an
`Access-Control-Allow-Origin` header (value `"*"`) — refuting the claim
that the header is attached only when the resolved origin is non-null. -/
theorem optionsResponse_star_when_null :
    resolveCorsOrigin (some "https://evil.com") ["https://a.com"] = none ∧
    headersGet (handleOptions (some "https://evil.com") ["https://a.com"]).headers
      "Access-Control-Allow-Origin" = some "*" := by
  refine ⟨by decide, by decide⟩

/-- C3 (amended): every OPTIONS request gets a 204 response carrying the
standard allow-methods/headers/expose-headers values and
`Access-Control-Max-Age: 86400`; when the resolved origin is truthy it is
echoed in `Access-Control-Allow-Origin` together with `Vary: Origin`, and
when it is null (or empty) the handler instead sets
`Access-Control-Allow-Origin: *` and no `Vary` header. -/
theorem optionsResponse_spec (oh : Option String) (l : List String) :
    (handleOptions oh l).status = 204 ∧
    headersGet (handleOptions oh l).headers "Access-Control-Allow-Methods" =
      some "GET, POST, PUT, PATCH, DELETE, OPTIONS" ∧
    headersGet (handleOptions oh l).headers "Access-Control-Allow-Headers" =
      some "Content-Type, Authorization, x-mastra-client-type, x-request-id" ∧
    headersGet (handleOptions oh l).headers "Access-Control-Expose-Headers" =
      some "Content-Length, X-Requested-With, x-request-id" ∧
    headersGet (handleOptions oh l).headers "Access-Control-Max-Age" = some "86400" ∧
    (isTruthy (resolveCorsOrigin oh l) = true →
      headersGet (handleOptions oh l).headers "Access-Control-Allow-Origin" =
        some ((resolveCorsOrigin oh l).getD "") ∧
      headersGet (handleOptions oh l).headers "Vary" = some "Origin") ∧
    (isTruthy (resolveCorsOrigin oh l) = false →
      headersGet (handleOptions oh l).headers "Access-Control-Allow-Origin" = some "*" ∧
      headersGet (handleOptions oh l).headers "Vary" = none) := by
  cases htr : isTruthy (resolveCorsOrigin oh l)
  · rw [handleOptions_headers_eq, optionsHeaders_falsy _ htr]
    refine ⟨rfl, rfl, rfl, rfl, rfl, ?_, fun _ => ⟨rfl, rfl⟩⟩
    intro hc
    cases hc
  · rw [handleOptions_headers_eq, optionsHeaders_truthy _ htr]
    refine ⟨rfl, rfl, rfl, rfl, rfl, fun _ => ⟨rfl, rfl⟩, ?_⟩
    intro hc
    cases hc

/-- C3 amended witness: origin `https://a.com` against allow-list
`["https://a.com"]` resolves truthy, and the OPTIONS response echoes it
with `Vary: Origin`. -/
theorem optionsResponse_spec_witness :
    isTruthy (resolveCorsOrigin (some "https://a.com") ["https://a.com"]) = true ∧
    (headersGet (handleOptions (some "https://a.com") ["https://a.com"]).headers
        "Access-Control-Allow-Origin" =
      some ((resolveCorsOrigin (some "https://a.com") ["https://a.com"]).getD "") ∧
     headersGet (handleOptions (some "https://a.com") ["https://a.com"]).headers "Vary" =
      some "Origin") :=
  ⟨by decide,
    (optionsResponse_spec (some "https://a.com") ["https://a.com"]).2.2.2.2.2.1 (by decide)⟩

/-- C8: for every intake whose lower-cased narrative contains no catalog
keyword and no red-flag keyword, the analyzer returns the fixed
general-regulation fallback as primary pattern, an empty `redFlags` array
and no secondary patterns. -/
theorem analyze_no_hits (c : Intake)
    (hcat : ∀ kw ∈ allCatalogKeywords,
      containsSubstr (narrativeOf c) (toLowerStr kw) = false)
    (hred : ∀ kw ∈ allRedFlagKeywords,
      containsSubstr (narrativeOf c) (toLowerStr kw) = false) :
    (analyzePresentation c).primaryPattern = buildGeneralWellnessPattern c ∧
    (analyzePresentation c).redFlags = [] ∧
    (analyzePresentation c).secondaryPatterns = [] := by
  have hsc := scoredPatterns_allZero (narrativeOf c) hcat
  have hzero : ∀ s ∈ tcmPatterns.map (fun p => (⟨p, 0⟩ : Scored)), s.score = 0 := by
    intro s hs
    obtain ⟨p, _, rfl⟩ := List.mem_map.mp hs
    rfl
  refine ⟨?_, ?_, ?_⟩
  · simp only [analyzePresentation, hsc]
    cases hh : (tcmPatterns.map (fun p => (⟨p, 0⟩ : Scored))).head? with
    | none => rfl
    | some s =>
      have hs0 : s.score = 0 :=
        hzero s (List.mem_of_mem_head? (hh ▸ Option.mem_def.mpr rfl))
      simp [hs0]
  · simp only [analyzePresentation]
    have hfil : redFlagIndicators.filter
        (fun indicator => indicator.keywords.any
          (fun keyword => containsSubstr (narrativeOf c) (toLowerStr keyword))) = [] := by
      rw [List.filter_eq_nil_iff]
      intro ind hind
      simp only [List.any_eq_true, not_exists]
      rintro kw ⟨hkw, hc⟩
      rw [hred kw (mem_allRedFlagKeywords ind hind kw hkw)] at hc
      cases hc
    simp [hfil]
  · simp only [analyzePresentation, hsc]
    have hfil : (((tcmPatterns.map (fun p => (⟨p, 0⟩ : Scored))).drop 1).take 2).filter
        (fun s => s.score > 0) = [] := by decide
    simp only [hfil, List.map_nil]

/-- C8 witness: the spec's example intake `{keySymptoms: "一般不适"}` has
no keyword hits, and the analyzer returns the fallback, no red flags and
no secondary patterns. -/
theorem analyze_no_hits_witness :
    (∀ kw ∈ allCatalogKeywords,
      containsSubstr (narrativeOf ⟨"一般不适", none, none, none, none, none⟩)
        (toLowerStr kw) = false) ∧
    ((analyzePresentation ⟨"一般不适", none, none, none, none, none⟩).primaryPattern =
        buildGeneralWellnessPattern ⟨"一般不适", none, none, none, none, none⟩ ∧
      (analyzePresentation ⟨"一般不适", none, none, none, none, none⟩).redFlags = [] ∧
      (analyzePresentation ⟨"一般不适", none, none, none, none, none⟩).secondaryPatterns = []) :=
  ⟨by decide, analyze_no_hits ⟨"一般不适", none, none, none, none, none⟩
    (by decide) (by decide)⟩

/-- C9: total, non-throwing core — the wildcard-to-regex construction
yields a parseable (valid) regex for **every** allow-list pattern string,
because every metacharacter is escaped before `'*'` is substituted; and
the analyzer is a total function of the intake (any subset of optional
fields absent). -/
theorem core_is_total :
    (∀ pattern : String, (compileAnchored (wildcardToRegExp pattern)).isSome = true) ∧
    (∀ c : Intake, ∃ out : AnalysisResult, analyzePresentation c = out) :=
  ⟨compileAnchored_wildcard_isSome, fun c => ⟨analyzePresentation c, rfl⟩⟩

end MastraInquiry
